import Mathlib

/-!
Verification of the LiqPay payment-request builder.

The development shallowly embeds the single TypeScript class of the
repository (`LiqPay`): its configuration, the payload normalization
(`preparePayment`), validation (`verifyPaymentData`), serialization
(`generateData` = base64 of the JSON text) and signing
(`generateSignature` = base64 of SHA1(secret ++ data ++ secret)), as well
as the HTML form renderer (`getHtmlForm`) and the version setter
(`setApiVersion`).

Modelling conventions:
* JavaScript objects are association lists `List (String × JsonValue)`
  in insertion order; property assignment (`objSet`) overwrites in place
  or appends, exactly as JS insertion-order semantics prescribe.
* Thrown `TypeError`s become `Except.error` carrying the message text.
* `amount` is modelled as a natural number (the TS `number`); JSON
  formatting of non-integer amounts is outside the model.  JS truthiness
  of the modelled values: a string is falsy iff empty, a number iff zero.
* SHA-1, UTF-8 and base64 are implemented concretely over `Nat` bytes
  (all arithmetic is modulo 2^32 where the algorithm requires it).
-/

namespace LiqPaySpec

/-- Modelled from the spec: the `Action` enum of the repository
("action kind (enumerated: pay, hold, subscribe, etc.)"); the source file
defining it is not part of the provided sources.  The exact constructor
set does not affect any claim; values are distinct nonempty strings. -/
inductive Action
  | pay
  | hold
  | subscribe
  | paydonate
deriving DecidableEq

/-- Modelled from the spec: string value of an `Action`. -/
def actionStr : Action → String
  | .pay => "pay"
  | .hold => "hold"
  | .subscribe => "subscribe"
  | .paydonate => "paydonate"

/-- Modelled from the spec: the `Currency` enum ("currency (enumerated
ISO code)"); its source file is not part of the provided sources. -/
inductive Currency
  | UAH
  | USD
  | EUR
deriving DecidableEq

/-- Modelled from the spec: string value of a `Currency` (ISO code). -/
def currencyStr : Currency → String
  | .UAH => "UAH"
  | .USD => "USD"
  | .EUR => "EUR"

/-- Modelled from the spec: the `Language` enum ("optional locale",
"locale defaults to Ukrainian"); its source file is not part of the
provided sources.  `Language.UA` is the member the class references. -/
inductive Language
  | UA
  | EN
deriving DecidableEq

/-- Modelled from the spec: string value of a `Language`. -/
def languageStr : Language → String
  | .UA => "uk"
  | .EN => "en"

/-- The caller-supplied payload (interface `IPayload`). -/
structure IPayload where
  action : Action
  amount : Nat
  currency : Currency
  description : String
  order_id : String
  language : Option Language
deriving DecidableEq

/-- The signed request returned by `getObjData` (interface `ISignature`). -/
structure ISignature where
  data : String
  signature : String
deriving DecidableEq

/-- The builder's instance fields (class `LiqPay`): the constructor
parameters plus the mutable `apiVersion` (initialized `"3"`). -/
structure LiqPay where
  privateKey : String
  publicKey : String
  enableSandbox : Bool
  apiVersion : String
deriving DecidableEq

/-- The fixed gateway URL (`private baseUrl`). -/
def baseUrl : String := "https://www.liqpay.ua/api"

/-- The fixed button image URL (`private imageSrc`). -/
def imageSrc : String := "//static.liqpay.ua/buttons/p1ru.radius.png"

/-- The class constructor: `apiVersion` starts at `"3"`,
`enableSandbox` defaults to `false`. -/
def liqPayInit (privateKey publicKey : String) (enableSandbox : Bool := false) : LiqPay :=
  { privateKey := privateKey, publicKey := publicKey,
    enableSandbox := enableSandbox, apiVersion := "3" }

/-- `setApiVersion`: throws `TypeError` on a falsy (empty) version,
otherwise overwrites `this.apiVersion`. -/
def setApiVersion (cfg : LiqPay) (apiVersion : String) : Except String LiqPay :=
  if apiVersion = "" then .error "API version not specified!"
  else .ok { cfg with apiVersion := apiVersion }

/-- A JSON-able JS value as used by the payment object: strings
(enum values, texts) and numbers (`amount`). -/
inductive JsonValue
  | str : String → JsonValue
  | num : Nat → JsonValue
deriving DecidableEq

/-- JS truthiness of the modelled values: `""` and `0` are falsy. -/
def jsTruthy : JsonValue → Bool
  | .str s => s != ""
  | .num n => n != 0

/-- JS truthiness of a property access that may be `undefined`. -/
def optTruthy : Option JsonValue → Bool
  | none => false
  | some v => jsTruthy v

/-- Property read on a JS object (association list in insertion order). -/
def objGet : List (String × JsonValue) → String → Option JsonValue
  | [], _ => none
  | (k', v') :: t, k => if k' = k then some v' else objGet t k

/-- Property write on a JS object: an existing key keeps its position
and is overwritten, a fresh key is appended (JS insertion order). -/
def objSet : List (String × JsonValue) → String → JsonValue → List (String × JsonValue)
  | [], k, v => [(k, v)]
  | (k', v') :: t, k, v => if k' = k then (k, v) :: t else (k', v') :: objSet t k v

/-- The JS object holding a typed `IPayload`'s own enumerable properties,
in the interface's declaration order (`Object.assign({}, payload)`). -/
def payloadToObj (p : IPayload) : List (String × JsonValue) :=
  [("action", .str (actionStr p.action)),
   ("amount", .num p.amount),
   ("currency", .str (currencyStr p.currency)),
   ("description", .str p.description),
   ("order_id", .str p.order_id)] ++
  (match p.language with
   | none => []
   | some l => [("language", .str (languageStr l))])

/-- `preparePayment`, acting on the merged JS object: default the
language when falsy, set the sandbox marker when enabled, then always
overwrite `version` and `public_key` from the builder state. -/
def preparePaymentObj (cfg : LiqPay) (obj : List (String × JsonValue)) :
    List (String × JsonValue) :=
  let o1 := if optTruthy (objGet obj "language") then obj
            else objSet obj "language" (.str (languageStr Language.UA))
  let o2 := if cfg.enableSandbox then objSet o1 "sandbox" (.str "1") else o1
  let o3 := objSet o2 "version" (.str cfg.apiVersion)
  objSet o3 "public_key" (.str cfg.publicKey)

/-- `preparePayment` on a typed payload. -/
def preparePayment (cfg : LiqPay) (p : IPayload) : List (String × JsonValue) :=
  preparePaymentObj cfg (payloadToObj p)

/-- `verifyPaymentData`: truthiness checks of `version`, `amount`,
`currency`, `description`, in that order; the first falsy field throws. -/
def verifyPaymentData (payment : List (String × JsonValue)) : Except String Unit :=
  if !optTruthy (objGet payment "version") then .error "Version must be specified!"
  else if !optTruthy (objGet payment "amount") then .error "Amount must be specified!"
  else if !optTruthy (objGet payment "currency") then .error "Currency must be specified!"
  else if !optTruthy (objGet payment "description") then .error "Description must be specified!"
  else .ok ()

/-- Lower-case hexadecimal digit characters (also used for decimal). -/
def hexDig : Nat → Char
  | 0 => '0' | 1 => '1' | 2 => '2' | 3 => '3' | 4 => '4'
  | 5 => '5' | 6 => '6' | 7 => '7' | 8 => '8' | 9 => '9'
  | 10 => 'a' | 11 => 'b' | 12 => 'c' | 13 => 'd' | 14 => 'e'
  | _ => 'f'

/-- Decimal digits of a positive number, most significant first,
prepended to `acc`; the fuel is an upper bound on the number. -/
def natDigitsAux : Nat → Nat → List Char → List Char
  | 0, _, acc => acc
  | fuel + 1, n, acc =>
    if n = 0 then acc else natDigitsAux fuel (n / 10) (hexDig (n % 10) :: acc)

/-- JSON text of a nonnegative integer (JS number formatting restricted
to integers). -/
def natRepr (n : Nat) : List Char :=
  if n = 0 then ['0'] else natDigitsAux n n []

/-- JSON escaping of one character, following `JSON.stringify`:
quote and backslash get a backslash escape, control characters get the
short escapes or `\u00xx`, everything else is untouched. -/
def escChar (c : Char) : List Char :=
  if c = '"' then ['\\', '"']
  else if c = '\\' then ['\\', '\\']
  else if c.toNat = 8 then ['\\', 'b']
  else if c.toNat = 9 then ['\\', 't']
  else if c.toNat = 10 then ['\\', 'n']
  else if c.toNat = 12 then ['\\', 'f']
  else if c.toNat = 13 then ['\\', 'r']
  else if c.toNat < 32 then ['\\', 'u', '0', '0', hexDig (c.toNat / 16), hexDig (c.toNat % 16)]
  else [c]

/-- JSON escaping of a whole string body. -/
def escape (s : String) : List Char :=
  s.data.flatMap escChar

/-- JSON text of one value. -/
def jsonValStr : JsonValue → List Char
  | .str s => '"' :: escape s ++ ['"']
  | .num n => natRepr n

/-- JSON text of one `"key":value` member. -/
def jsonEntry (e : String × JsonValue) : List Char :=
  '"' :: escape e.1 ++ '"' :: ':' :: jsonValStr e.2

/-- Comma-join of member texts. -/
def joinComma : List (List Char) → List Char
  | [] => []
  | [x] => x
  | x :: xs => x ++ ',' :: joinComma xs

/-- `JSON.stringify` of a JS object: members in insertion order. -/
def jsonObjStr (obj : List (String × JsonValue)) : List Char :=
  '{' :: joinComma (obj.map jsonEntry) ++ ['}']

/-- UTF-8 bytes of one unicode scalar value. -/
def utf8Char (c : Char) : List Nat :=
  let v := c.toNat
  if v < 0x80 then [v]
  else if v < 0x800 then [0xC0 + v / 0x40, 0x80 + v % 0x40]
  else if v < 0x10000 then
    [0xE0 + v / 0x1000, 0x80 + v / 0x40 % 0x40, 0x80 + v % 0x40]
  else
    [0xF0 + v / 0x40000, 0x80 + v / 0x1000 % 0x40, 0x80 + v / 0x40 % 0x40, 0x80 + v % 0x40]

/-- UTF-8 bytes of a string (`Buffer.from(s)` / `hash.update(s)`). -/
def utf8Str (s : String) : List Nat :=
  s.data.flatMap utf8Char

/-- The base64 alphabet. -/
def b64Alphabet : List Char :=
  "ABCDEFGHIJKLMNOPQRSTUVWXYZabcdefghijklmnopqrstuvwxyz0123456789+/".data

/-- The base64 digit for a 6-bit group. -/
def b64Digit (n : Nat) : Char :=
  b64Alphabet.getD n 'A'

/-- Standard base64 encoding of a byte list, with `=` padding. -/
def b64Encode : List Nat → List Char
  | [] => []
  | [b1] => [b64Digit (b1 / 4), b64Digit (b1 % 4 * 16), '=', '=']
  | [b1, b2] => [b64Digit (b1 / 4), b64Digit (b1 % 4 * 16 + b2 / 16), b64Digit (b2 % 16 * 4), '=']
  | b1 :: b2 :: b3 :: r =>
    b64Digit (b1 / 4) :: b64Digit (b1 % 4 * 16 + b2 / 16) ::
    b64Digit (b2 % 16 * 4 + b3 / 64) :: b64Digit (b3 % 64) :: b64Encode r

/-- Truncation to a 32-bit word. -/
def wmask (x : Nat) : Nat := x % 4294967296

/-- 32-bit left rotation (input below 2^32). -/
def rotl (k x : Nat) : Nat := wmask (x <<< k) ||| x >>> (32 - k)

/-- Big-endian bytes of a 32-bit word. -/
def be32 (n : Nat) : List Nat := [n / 16777216 % 256, n / 65536 % 256, n / 256 % 256, n % 256]

/-- Big-endian bytes of a 64-bit quantity. -/
def be64 (n : Nat) : List Nat := be32 (n / 4294967296) ++ be32 (n % 4294967296)

/-- SHA-1 padding: `0x80`, zeros to 56 mod 64, then the bit length.
The zero count `(56 - (len+1)) mod 64` is computed as
`(120 - (len+1) % 64) % 64` so the subtraction never truncates: with
`(len+1) % 64` at most 63 the minuend 120 keeps the difference positive,
the count lands in 0..63, and the padded length is a multiple of 64 for
every message length. -/
def sha1Pad (msg : List Nat) : List Nat :=
  msg ++ 128 :: List.replicate ((120 - (msg.length + 1) % 64) % 64) 0 ++ be64 (msg.length * 8)

/-- Big-endian 32-bit words of a 64-byte chunk. -/
def toWords : List Nat → List Nat
  | a :: b :: c :: d :: r => (a * 16777216 + b * 65536 + c * 256 + d) :: toWords r
  | _ => []

/-- SHA-1 message-schedule extension from 16 to 80 words. -/
def extendWords (ws : List Nat) : List Nat :=
  (List.range 64).foldl
    (fun acc _ =>
      acc ++ [rotl 1 (Nat.xor
        (Nat.xor (acc.getD (acc.length - 3) 0) (acc.getD (acc.length - 8) 0))
        (Nat.xor (acc.getD (acc.length - 14) 0) (acc.getD (acc.length - 16) 0)))])
    ws

/-- SHA-1 round function. -/
def sha1F (t b c d : Nat) : Nat :=
  if t < 20 then Nat.lor (Nat.land b c) (Nat.land (Nat.xor b 4294967295) d)
  else if t < 40 then Nat.xor (Nat.xor b c) d
  else if t < 60 then Nat.lor (Nat.lor (Nat.land b c) (Nat.land b d)) (Nat.land c d)
  else Nat.xor (Nat.xor b c) d

/-- SHA-1 round constants. -/
def sha1K (t : Nat) : Nat :=
  if t < 20 then 1518500249
  else if t < 40 then 1859775393
  else if t < 60 then 2400959708
  else 3395469782

/-- One SHA-1 round on the five-word state. -/
def sha1Round (w : List Nat) (st : Nat × Nat × Nat × Nat × Nat) (t : Nat) :
    Nat × Nat × Nat × Nat × Nat :=
  let a := st.1
  let b := st.2.1
  let c := st.2.2.1
  let d := st.2.2.2.1
  let e := st.2.2.2.2
  (wmask (rotl 5 a + sha1F t b c d + e + sha1K t + w.getD t 0), a, rotl 30 b, c, d)

/-- SHA-1 compression of one 64-byte chunk. -/
def sha1Chunk (h : Nat × Nat × Nat × Nat × Nat) (chunk : List Nat) :
    Nat × Nat × Nat × Nat × Nat :=
  let w := extendWords (toWords chunk)
  let r := (List.range 80).foldl (sha1Round w) h
  (wmask (h.1 + r.1), wmask (h.2.1 + r.2.1), wmask (h.2.2.1 + r.2.2.1),
   wmask (h.2.2.2.1 + r.2.2.2.1), wmask (h.2.2.2.2 + r.2.2.2.2))

/-- Split into 64-byte chunks. -/
def chunks64 (l : List Nat) : List (List Nat) :=
  if l = [] then [] else l.take 64 :: chunks64 (l.drop 64)
termination_by l.length
decreasing_by
  simp [List.length_drop]
  cases l with
  | nil => simp_all
  | cons a t => simp

/-- SHA-1 digest (20 bytes) of a byte message. -/
def sha1 (msg : List Nat) : List Nat :=
  let i := (1732584193, 4023233417, 2562383102, 271733878, 3285377520)
  let h := (chunks64 (sha1Pad msg)).foldl sha1Chunk i
  be32 h.1 ++ be32 h.2.1 ++ be32 h.2.2.1 ++ be32 h.2.2.2.1 ++ be32 h.2.2.2.2

/-- `generateData`: base64 of the UTF-8 bytes of the JSON text. -/
def generateData (paymentData : List (String × JsonValue)) : String :=
  String.mk (b64Encode (utf8Str (String.mk (jsonObjStr paymentData))))

/-- `generateSignature`: base64 of SHA1(privateKey ++ data ++ privateKey). -/
def generateSignature (cfg : LiqPay) (data : String) : String :=
  String.mk (b64Encode (sha1 (utf8Str (cfg.privateKey ++ data ++ cfg.privateKey))))

/-- `getObjData`: prepare, verify, then encode and sign. -/
def getObjData (cfg : LiqPay) (payload : IPayload) : Except String ISignature :=
  let payment := preparePayment cfg payload
  match verifyPaymentData payment with
  | .error e => .error e
  | .ok _ =>
    let data := generateData payment
    .ok { data := data, signature := generateSignature cfg data }

/-- Template text before the action URL (exact text of the template
literal in `getHtmlForm`, including its newlines and indentation). -/
def htmlT0 : String := "\n            <form method=\"POST\" action=\""

/-- Template text between the action URL and the data value. -/
def htmlT1 : String :=
  "\" accept-charset=\"utf-8\">\n                <input type=\"hidden\" name=\"data\" value=\""

/-- Template text between the data value and the signature value. -/
def htmlT2 : String :=
  "\" />\n                <input type=\"hidden\" name=\"signature\" value=\""

/-- Template text between the signature value and the image URL. -/
def htmlT3 : String := "\" />\n                <input type=\"image\" src=\""

/-- Template text after the image URL. -/
def htmlT4 : String := "\" />\n            </form>\n        "

/-- `getHtmlForm`: renders the form template around `getObjData`'s
output (exceptions from `getObjData` propagate). -/
def getHtmlForm (cfg : LiqPay) (payload : IPayload) : Except String String :=
  match getObjData cfg payload with
  | .error e => .error e
  | .ok r =>
    .ok (htmlT0 ++ baseUrl ++ "/" ++ cfg.apiVersion ++ "/checkout" ++ htmlT1 ++
         r.data ++ htmlT2 ++ r.signature ++ htmlT3 ++ imageSrc ++ htmlT4)

/-- The payment-object layout stated by the specification: fields in
the order action, amount, currency, description, order_id, language,
sandbox (only when enabled), version, public_key, with language
defaulted and version/public_key taken from the builder. -/
def specOrdered (cfg : LiqPay) (p : IPayload) : List (String × JsonValue) :=
  [("action", .str (actionStr p.action)),
   ("amount", .num p.amount),
   ("currency", .str (currencyStr p.currency)),
   ("description", .str p.description),
   ("order_id", .str p.order_id),
   ("language", .str (languageStr (p.language.getD Language.UA)))] ++
  (if cfg.enableSandbox then [("sandbox", .str "1")] else []) ++
  [("version", .str cfg.apiVersion), ("public_key", .str cfg.publicKey)]

theorem languageStr_ne_empty (l : Language) : languageStr l ≠ "" := by
  cases l <;> decide

theorem currencyStr_ne_empty (c : Currency) : currencyStr c ≠ "" := by
  cases c <;> decide

/-- The code's normalization agrees with the specification layout. -/
theorem preparePayment_eq (cfg : LiqPay) (p : IPayload) :
    preparePayment cfg p = specOrdered cfg p := by
  cases hl : p.language with
  | none =>
    cases hb : cfg.enableSandbox <;>
      simp [preparePayment, preparePaymentObj, payloadToObj, specOrdered, hl, hb,
        objGet, objSet, optTruthy, jsTruthy]
  | some l =>
    have hne : (languageStr l != "") = true := by
      simp [bne_iff_ne]
      exact languageStr_ne_empty l
    cases hb : cfg.enableSandbox <;>
      simp [preparePayment, preparePaymentObj, payloadToObj, specOrdered, hl, hb,
        objGet, objSet, optTruthy, jsTruthy, hne]

theorem objGet_prepared_version (cfg : LiqPay) (p : IPayload) :
    objGet (preparePayment cfg p) "version" = some (.str cfg.apiVersion) := by
  rw [preparePayment_eq]
  cases hb : cfg.enableSandbox <;> simp [specOrdered, hb, objGet]

theorem objGet_prepared_amount (cfg : LiqPay) (p : IPayload) :
    objGet (preparePayment cfg p) "amount" = some (.num p.amount) := by
  rw [preparePayment_eq]
  cases hb : cfg.enableSandbox <;> simp [specOrdered, hb, objGet]

theorem objGet_prepared_currency (cfg : LiqPay) (p : IPayload) :
    objGet (preparePayment cfg p) "currency" = some (.str (currencyStr p.currency)) := by
  rw [preparePayment_eq]
  cases hb : cfg.enableSandbox <;> simp [specOrdered, hb, objGet]

theorem objGet_prepared_description (cfg : LiqPay) (p : IPayload) :
    objGet (preparePayment cfg p) "description" = some (.str p.description) := by
  rw [preparePayment_eq]
  cases hb : cfg.enableSandbox <;> simp [specOrdered, hb, objGet]

theorem objGet_prepared_language (cfg : LiqPay) (p : IPayload) :
    objGet (preparePayment cfg p) "language" =
      some (.str (languageStr (p.language.getD Language.UA))) := by
  rw [preparePayment_eq]
  cases hb : cfg.enableSandbox <;> simp [specOrdered, hb, objGet]

theorem objGet_prepared_sandbox (cfg : LiqPay) (p : IPayload) :
    objGet (preparePayment cfg p) "sandbox" =
      (if cfg.enableSandbox then some (.str "1") else none) := by
  rw [preparePayment_eq]
  cases hb : cfg.enableSandbox <;> simp [specOrdered, hb, objGet]

/-- The validation outcome on a normalized payment, as a case split on
the four checks in source order (the currency check compares the enum's
string value, which is never empty). -/
theorem verify_prepared (cfg : LiqPay) (p : IPayload) :
    verifyPaymentData (preparePayment cfg p) =
      (if cfg.apiVersion = "" then .error "Version must be specified!"
       else if p.amount = 0 then .error "Amount must be specified!"
       else if currencyStr p.currency = "" then .error "Currency must be specified!"
       else if p.description = "" then .error "Description must be specified!"
       else .ok ()) := by
  rw [verifyPaymentData, objGet_prepared_version, objGet_prepared_amount,
    objGet_prepared_currency, objGet_prepared_description]
  simp only [optTruthy, jsTruthy, Bool.not_eq_true', bne_eq_false_iff_eq]

/-- On successful validation, `getObjData` returns the encoded and
signed payment. -/
theorem getObjData_ok (cfg : LiqPay) (p : IPayload)
    (h : verifyPaymentData (preparePayment cfg p) = .ok ()) :
    getObjData cfg p =
      .ok { data := generateData (preparePayment cfg p),
            signature := generateSignature cfg (generateData (preparePayment cfg p)) } := by
  simp [getObjData, h]

/-- On failed validation, `getObjData` propagates the error. -/
theorem getObjData_error (cfg : LiqPay) (p : IPayload) (e : String)
    (h : verifyPaymentData (preparePayment cfg p) = .error e) :
    getObjData cfg p = .error e := by
  simp [getObjData, h]

theorem objGet_objSet_self (o : List (String × JsonValue)) (k : String) (v : JsonValue) :
    objGet (objSet o k v) k = some v := by
  induction o with
  | nil => simp [objSet, objGet]
  | cons e t ih =>
    obtain ⟨k', v'⟩ := e
    by_cases h : k' = k
    · simp [objSet, objGet, h]
    · simp [objSet, objGet, h, ih]

theorem objGet_objSet_ne (o : List (String × JsonValue)) (k q : String) (v : JsonValue)
    (h : k ≠ q) : objGet (objSet o k v) q = objGet o q := by
  induction o with
  | nil => simp [objSet, objGet, h]
  | cons e t ih =>
    obtain ⟨k', v'⟩ := e
    by_cases hk : k' = k
    · subst hk
      simp [objSet, objGet, h]
    · by_cases hq : k' = q
      · subst hq
        simp [objSet, objGet, hk]
      · simp [objSet, objGet, hk, hq, ih]

/-- C2: `getObjData` either yields a complete signed request or fails
with the message of the first falsy field, the checks running in the
fixed order version, amount, currency, description with no aggregation;
in particular a zero amount wins over a missing description. -/
theorem claim_validation_first_failure (cfg : LiqPay) (p : IPayload) :
    getObjData cfg p =
      (if cfg.apiVersion = "" then .error "Version must be specified!"
       else if p.amount = 0 then .error "Amount must be specified!"
       else if currencyStr p.currency = "" then .error "Currency must be specified!"
       else if p.description = "" then .error "Description must be specified!"
       else .ok { data := generateData (preparePayment cfg p),
                  signature := generateSignature cfg (generateData (preparePayment cfg p)) }) ∧
    (p.amount = 0 → cfg.apiVersion ≠ "" →
      getObjData cfg p = .error "Amount must be specified!") := by
  have key : getObjData cfg p =
      (if cfg.apiVersion = "" then .error "Version must be specified!"
       else if p.amount = 0 then .error "Amount must be specified!"
       else if currencyStr p.currency = "" then .error "Currency must be specified!"
       else if p.description = "" then .error "Description must be specified!"
       else .ok { data := generateData (preparePayment cfg p),
                  signature := generateSignature cfg (generateData (preparePayment cfg p)) }) := by
    have hd : getObjData cfg p =
        (match verifyPaymentData (preparePayment cfg p) with
         | .error e => .error e
         | .ok _ => .ok { data := generateData (preparePayment cfg p),
                          signature := generateSignature cfg (generateData (preparePayment cfg p)) }) := rfl
    rw [hd, verify_prepared]
    split_ifs <;> rfl
  refine ⟨key, fun ha hv => ?_⟩
  rw [key, if_neg hv, if_pos ha]

/-- C2 witness: a payload with amount 0 and empty description is
rejected citing the amount. -/
theorem claim_validation_first_failure_witness :
    getObjData (liqPayInit "key" "pub" false)
        (⟨Action.pay, 0, Currency.UAH, "", "ord", none⟩ : IPayload) =
      .error "Amount must be specified!" :=
  (claim_validation_first_failure (liqPayInit "key" "pub" false)
    (⟨Action.pay, 0, Currency.UAH, "", "ord", none⟩ : IPayload)).2 rfl (by decide)

/-- C3: `getObjData` is a pure function of the four configuration
fields and the payload; builders agreeing on them produce identical
results on identical payloads, with no nonce or timestamp involved. -/
theorem claim_deterministic (cfg1 cfg2 : LiqPay) (p1 p2 : IPayload)
    (hk : cfg1.privateKey = cfg2.privateKey) (hb : cfg1.publicKey = cfg2.publicKey)
    (hs : cfg1.enableSandbox = cfg2.enableSandbox) (hv : cfg1.apiVersion = cfg2.apiVersion)
    (hp : p1 = p2) : getObjData cfg1 p1 = getObjData cfg2 p2 := by
  cases cfg1
  cases cfg2
  dsimp only at hk hb hs hv
  subst hk hb hs hv hp
  rfl

/-- C3 witness: two syntactically different but field-equal builders. -/
theorem claim_deterministic_witness :
    getObjData (liqPayInit "key" "pub" true)
        (⟨Action.pay, 1, Currency.UAH, "d", "o", none⟩ : IPayload) =
      getObjData (⟨"key", "pub", true, "3"⟩ : LiqPay)
        (⟨Action.pay, 1, Currency.UAH, "d", "o", none⟩ : IPayload) :=
  claim_deterministic _ _ _ _ rfl rfl rfl rfl rfl

/-- C4: on a valid payload the returned data encodes the normalized
payment object, which carries `"sandbox": "1"` exactly when the builder
was constructed in sandbox mode and has no sandbox member otherwise. -/
theorem claim_sandbox_marker (cfg : LiqPay) (p : IPayload)
    (h : verifyPaymentData (preparePayment cfg p) = .ok ()) :
    getObjData cfg p =
      .ok { data := generateData (preparePayment cfg p),
            signature := generateSignature cfg (generateData (preparePayment cfg p)) } ∧
    (cfg.enableSandbox = true → objGet (preparePayment cfg p) "sandbox" = some (.str "1")) ∧
    (cfg.enableSandbox = false → objGet (preparePayment cfg p) "sandbox" = none) :=
  ⟨getObjData_ok cfg p h,
   fun hb => by rw [objGet_prepared_sandbox, hb]; rfl,
   fun hb => by rw [objGet_prepared_sandbox, hb]; rfl⟩

/-- C4 witness: sandbox-enabled builder on a valid payload. -/
theorem claim_sandbox_marker_witness :
    getObjData (liqPayInit "key" "pub" true)
        (⟨Action.pay, 1, Currency.UAH, "d", "o", none⟩ : IPayload) =
      .ok { data := generateData (preparePayment (liqPayInit "key" "pub" true)
                      (⟨Action.pay, 1, Currency.UAH, "d", "o", none⟩ : IPayload)),
            signature := generateSignature (liqPayInit "key" "pub" true)
              (generateData (preparePayment (liqPayInit "key" "pub" true)
                (⟨Action.pay, 1, Currency.UAH, "d", "o", none⟩ : IPayload))) } ∧
    ((liqPayInit "key" "pub" true).enableSandbox = true →
      objGet (preparePayment (liqPayInit "key" "pub" true)
        (⟨Action.pay, 1, Currency.UAH, "d", "o", none⟩ : IPayload)) "sandbox" =
        some (.str "1")) ∧
    ((liqPayInit "key" "pub" true).enableSandbox = false →
      objGet (preparePayment (liqPayInit "key" "pub" true)
        (⟨Action.pay, 1, Currency.UAH, "d", "o", none⟩ : IPayload)) "sandbox" = none) :=
  claim_sandbox_marker _ _ rfl

/-- C5: the version setter always rejects the empty string with the
configuration error, and after setting version "3" every payment object
embedded in the returned data carries `"version": "3"`. -/
theorem claim_setApiVersion_behavior :
    (∀ cfg, setApiVersion cfg "" = .error "API version not specified!") ∧
    (∀ (cfg cfg' : LiqPay) (p : IPayload), setApiVersion cfg "3" = .ok cfg' →
      verifyPaymentData (preparePayment cfg' p) = .ok () →
      getObjData cfg' p =
        .ok { data := generateData (preparePayment cfg' p),
              signature := generateSignature cfg' (generateData (preparePayment cfg' p)) } ∧
      objGet (preparePayment cfg' p) "version" = some (.str "3")) := by
  constructor
  · intro cfg
    rfl
  · intro cfg cfg' p hset hv
    rw [setApiVersion, if_neg (by decide : ¬("3" : String) = "")] at hset
    have hc : cfg' = { cfg with apiVersion := "3" } := by
      cases hset
      rfl
    subst hc
    exact ⟨getObjData_ok _ _ hv, by rw [objGet_prepared_version]⟩

/-- C5 witness: instantiation of both parts on a concrete builder. -/
theorem claim_setApiVersion_behavior_witness :
    setApiVersion (liqPayInit "key" "pub" false) "" = .error "API version not specified!" ∧
    (getObjData ({ liqPayInit "key" "pub" false with apiVersion := "3" })
        (⟨Action.pay, 1, Currency.UAH, "d", "o", none⟩ : IPayload) =
      .ok { data := generateData (preparePayment ({ liqPayInit "key" "pub" false with apiVersion := "3" })
                      (⟨Action.pay, 1, Currency.UAH, "d", "o", none⟩ : IPayload)),
            signature := generateSignature ({ liqPayInit "key" "pub" false with apiVersion := "3" })
              (generateData (preparePayment ({ liqPayInit "key" "pub" false with apiVersion := "3" })
                (⟨Action.pay, 1, Currency.UAH, "d", "o", none⟩ : IPayload))) } ∧
     objGet (preparePayment ({ liqPayInit "key" "pub" false with apiVersion := "3" })
        (⟨Action.pay, 1, Currency.UAH, "d", "o", none⟩ : IPayload)) "version" =
       some (.str "3")) :=
  ⟨claim_setApiVersion_behavior.1 _,
   claim_setApiVersion_behavior.2 (liqPayInit "key" "pub" false) _ _ rfl rfl⟩

/-- C7: normalization keeps a caller-supplied language and defaults to
Ukrainian exactly when it was unset, while version and public_key of
the result always come from the builder state, whatever the caller
object contained. -/
theorem claim_normalization_defaults (cfg : LiqPay) (p : IPayload)
    (obj : List (String × JsonValue)) :
    objGet (preparePayment cfg p) "language" =
      some (.str (languageStr (p.language.getD Language.UA))) ∧
    objGet (preparePaymentObj cfg obj) "version" = some (.str cfg.apiVersion) ∧
    objGet (preparePaymentObj cfg obj) "public_key" = some (.str cfg.publicKey) := by
  refine ⟨objGet_prepared_language cfg p, ?_, ?_⟩
  · simp only [preparePaymentObj]
    rw [objGet_objSet_ne _ _ _ _ (by decide), objGet_objSet_self]
  · simp only [preparePaymentObj]
    rw [objGet_objSet_self]

/-- C8 counterexample: `setApiVersion` changes the configured version
of an already-constructed builder, so the configuration is not
immutable after construction. -/
theorem claim_version_mutable_counterexample :
    setApiVersion (liqPayInit "key" "pub" false) "4" =
      .ok (⟨"key", "pub", false, "4"⟩ : LiqPay) ∧
    (liqPayInit "key" "pub" false).apiVersion = "3" ∧
    (⟨"key", "pub", false, "4"⟩ : LiqPay).apiVersion ≠ (liqPayInit "key" "pub" false).apiVersion :=
  ⟨rfl, rfl, by decide⟩

/-- C8 amended: the private secret, public identifier and sandbox flag
are never changed by any operation; the version defaults at
construction but is replaced by `setApiVersion`, the only mutating
operation, which accepts exactly the nonempty version strings. -/
theorem claim_config_frame (cfg : LiqPay) (v : String) (cfg' : LiqPay)
    (h : setApiVersion cfg v = .ok cfg') :
    cfg'.privateKey = cfg.privateKey ∧ cfg'.publicKey = cfg.publicKey ∧
    cfg'.enableSandbox = cfg.enableSandbox ∧ cfg'.apiVersion = v ∧ v ≠ "" := by
  by_cases hv : v = ""
  · rw [setApiVersion, if_pos hv] at h
    exact absurd h (by simp)
  · rw [setApiVersion, if_neg hv] at h
    cases h
    exact ⟨rfl, rfl, rfl, rfl, hv⟩

/-- C8 amended witness: concrete successful version update. -/
theorem claim_config_frame_witness :
    (⟨"key", "pub", false, "4"⟩ : LiqPay).privateKey = (liqPayInit "key" "pub" false).privateKey ∧
    (⟨"key", "pub", false, "4"⟩ : LiqPay).publicKey = (liqPayInit "key" "pub" false).publicKey ∧
    (⟨"key", "pub", false, "4"⟩ : LiqPay).enableSandbox = (liqPayInit "key" "pub" false).enableSandbox ∧
    (⟨"key", "pub", false, "4"⟩ : LiqPay).apiVersion = "4" ∧ ("4" : String) ≠ "" :=
  claim_config_frame (liqPayInit "key" "pub" false) "4" _ rfl

/-- C10: validation treats falsy values as missing: a present amount
equal to 0 is rejected citing the amount, and a present but empty
description is rejected citing the description. -/
theorem claim_falsy_fields (cfg : LiqPay) (p : IPayload) (hv : cfg.apiVersion ≠ "") :
    (p.amount = 0 → getObjData cfg p = .error "Amount must be specified!") ∧
    (p.amount ≠ 0 → p.description = "" →
      getObjData cfg p = .error "Description must be specified!") := by
  constructor
  · intro ha
    apply getObjData_error
    rw [verify_prepared, if_neg hv, if_pos ha]
  · intro ha hd
    apply getObjData_error
    rw [verify_prepared, if_neg hv, if_neg ha,
      if_neg (currencyStr_ne_empty p.currency), if_pos hd]

/-- C10 witness: zero amount, and separately an empty description. -/
theorem claim_falsy_fields_witness :
    getObjData (liqPayInit "key" "pub" false)
        (⟨Action.pay, 0, Currency.UAH, "d", "o", none⟩ : IPayload) =
      .error "Amount must be specified!" ∧
    getObjData (liqPayInit "key" "pub" false)
        (⟨Action.pay, 5, Currency.UAH, "", "o", none⟩ : IPayload) =
      .error "Description must be specified!" :=
  ⟨(claim_falsy_fields (liqPayInit "key" "pub" false)
      (⟨Action.pay, 0, Currency.UAH, "d", "o", none⟩ : IPayload) (by decide)).1 rfl,
   (claim_falsy_fields (liqPayInit "key" "pub" false)
      (⟨Action.pay, 5, Currency.UAH, "", "o", none⟩ : IPayload) (by decide)).2 (by decide) rfl⟩

/-- C1: on every payload that passes validation, the returned data is
the base64 of the JSON text whose members appear in the order action,
amount, currency, description, order_id, language, sandbox (only when
enabled), version, public_key, and the signature is the base64 of
SHA1(privateKey ++ data ++ privateKey). -/
theorem claim_data_signature_layout (cfg : LiqPay) (p : IPayload)
    (h : verifyPaymentData (preparePayment cfg p) = .ok ()) :
    getObjData cfg p =
      .ok { data := String.mk (b64Encode (utf8Str (String.mk (jsonObjStr (specOrdered cfg p))))),
            signature := String.mk (b64Encode (sha1 (utf8Str
              (cfg.privateKey ++
               String.mk (b64Encode (utf8Str (String.mk (jsonObjStr (specOrdered cfg p))))) ++
               cfg.privateKey)))) } := by
  rw [getObjData_ok cfg p h, preparePayment_eq]
  rfl

/-- C1 witness: concrete valid payload on a sandbox builder. -/
theorem claim_data_signature_layout_witness :
    verifyPaymentData (preparePayment (liqPayInit "key" "pub" true)
        (⟨Action.pay, 1, Currency.UAH, "d", "o", none⟩ : IPayload)) = .ok () ∧
    getObjData (liqPayInit "key" "pub" true)
        (⟨Action.pay, 1, Currency.UAH, "d", "o", none⟩ : IPayload) =
      .ok { data := String.mk (b64Encode (utf8Str (String.mk (jsonObjStr
              (specOrdered (liqPayInit "key" "pub" true)
                (⟨Action.pay, 1, Currency.UAH, "d", "o", none⟩ : IPayload)))))),
            signature := String.mk (b64Encode (sha1 (utf8Str
              ((liqPayInit "key" "pub" true).privateKey ++
               String.mk (b64Encode (utf8Str (String.mk (jsonObjStr
                 (specOrdered (liqPayInit "key" "pub" true)
                   (⟨Action.pay, 1, Currency.UAH, "d", "o", none⟩ : IPayload)))))) ++
               (liqPayInit "key" "pub" true).privateKey)))) } :=
  ⟨rfl, claim_data_signature_layout _ _ rfl⟩

/-- A flatMap encoding whose one-token decoder round-trips is
injective. -/
theorem flatMap_encode_inj {α β : Type} (f : α → List β) (d : List β → Option (α × List β))
    (hnil : d [] = none) (hd : ∀ a r, d (f a ++ r) = some (a, r)) :
    ∀ l1 l2 : List α, l1.flatMap f = l2.flatMap f → l1 = l2 := by
  intro l1
  induction l1 with
  | nil =>
    intro l2 h
    cases l2 with
    | nil => rfl
    | cons a t =>
      exfalso
      rw [List.flatMap_nil, List.flatMap_cons] at h
      have hda := hd a (t.flatMap f)
      rw [← h, hnil] at hda
      exact Option.noConfusion hda
  | cons a t ih =>
    intro l2 h
    cases l2 with
    | nil =>
      exfalso
      rw [List.flatMap_cons, List.flatMap_nil] at h
      have hda := hd a (t.flatMap f)
      rw [h, hnil] at hda
      exact Option.noConfusion hda
    | cons a2 t2 =>
      rw [List.flatMap_cons, List.flatMap_cons] at h
      have hda := hd a (t.flatMap f)
      rw [h, hd a2 (t2.flatMap f)] at hda
      injection hda with hp
      injection hp with ha ht
      subst ha
      rw [ih t2 ht.symm]

/-- Value of a hexadecimal digit character. -/
def hexVal : Char → Nat
  | '0' => 0 | '1' => 1 | '2' => 2 | '3' => 3 | '4' => 4
  | '5' => 5 | '6' => 6 | '7' => 7 | '8' => 8 | '9' => 9
  | 'a' => 10 | 'b' => 11 | 'c' => 12 | 'd' => 13 | 'e' => 14
  | 'f' => 15
  | _ => 16

/-- One-token decoder for the JSON escape encoding. -/
def escDec : List Char → Option (Char × List Char)
  | [] => none
  | c :: r =>
    if c = '\\' then
      match r with
      | [] => none
      | c2 :: r2 =>
        if c2 = '"' then some ('"', r2)
        else if c2 = '\\' then some ('\\', r2)
        else if c2 = 'b' then some (Char.ofNat 8, r2)
        else if c2 = 't' then some (Char.ofNat 9, r2)
        else if c2 = 'n' then some (Char.ofNat 10, r2)
        else if c2 = 'f' then some (Char.ofNat 12, r2)
        else if c2 = 'r' then some (Char.ofNat 13, r2)
        else if c2 = 'u' then
          match r2 with
          | h1 :: h2 :: h3 :: h4 :: r3 =>
            some (Char.ofNat (hexVal h1 * 4096 + hexVal h2 * 256 + hexVal h3 * 16 + hexVal h4), r3)
          | _ => none
        else none
    else some (c, r)

theorem hexVal_hexDig : ∀ n, n < 16 → hexVal (hexDig n) = n := by decide

/-- The escape decoder inverts `escChar` in any right context. -/
theorem escDec_escChar (c : Char) (r : List Char) : escDec (escChar c ++ r) = some (c, r) := by
  by_cases h1 : c = '"'
  · subst h1; rfl
  by_cases h2 : c = '\\'
  · subst h2; rfl
  by_cases h3 : c.toNat = 8
  · have hc : c = Char.ofNat 8 := by rw [← h3, Char.ofNat_toNat]
    rw [escChar, if_neg h1, if_neg h2, if_pos h3]
    simp [escDec, hc]
  by_cases h4 : c.toNat = 9
  · have hc : c = Char.ofNat 9 := by rw [← h4, Char.ofNat_toNat]
    rw [escChar, if_neg h1, if_neg h2, if_neg h3, if_pos h4]
    simp [escDec, hc]
  by_cases h5 : c.toNat = 10
  · have hc : c = Char.ofNat 10 := by rw [← h5, Char.ofNat_toNat]
    rw [escChar, if_neg h1, if_neg h2, if_neg h3, if_neg h4, if_pos h5]
    simp [escDec, hc]
  by_cases h6 : c.toNat = 12
  · have hc : c = Char.ofNat 12 := by rw [← h6, Char.ofNat_toNat]
    rw [escChar, if_neg h1, if_neg h2, if_neg h3, if_neg h4, if_neg h5, if_pos h6]
    simp [escDec, hc]
  by_cases h7 : c.toNat = 13
  · have hc : c = Char.ofNat 13 := by rw [← h7, Char.ofNat_toNat]
    rw [escChar, if_neg h1, if_neg h2, if_neg h3, if_neg h4, if_neg h5, if_neg h6, if_pos h7]
    simp [escDec, hc]
  by_cases h8 : c.toNat < 32
  · rw [escChar, if_neg h1, if_neg h2, if_neg h3, if_neg h4, if_neg h5, if_neg h6, if_neg h7,
      if_pos h8]
    have e1 : hexVal (hexDig (c.toNat / 16)) = c.toNat / 16 := hexVal_hexDig _ (by omega)
    have e2 : hexVal (hexDig (c.toNat % 16)) = c.toNat % 16 := hexVal_hexDig _ (by omega)
    have harith : c.toNat / 16 * 16 + c.toNat % 16 = c.toNat := by omega
    have hstep : escDec (['\\', 'u', '0', '0', hexDig (c.toNat / 16), hexDig (c.toNat % 16)] ++ r)
        = some (Char.ofNat (hexVal '0' * 4096 + hexVal '0' * 256 +
            hexVal (hexDig (c.toNat / 16)) * 16 + hexVal (hexDig (c.toNat % 16))), r) := rfl
    rw [hstep, e1, e2, show hexVal '0' = 0 from rfl]
    norm_num
    rw [harith, Char.ofNat_toNat]
  · rw [escChar, if_neg h1, if_neg h2, if_neg h3, if_neg h4, if_neg h5, if_neg h6, if_neg h7,
      if_neg h8]
    simp [escDec, h2]

theorem escDec_nil : escDec [] = none := rfl

/-- Escaping at the character-list level. -/
theorem escape_eq_flatMap (s : String) : escape s = s.data.flatMap escChar := rfl

/-- Escaping is injective. -/
theorem escape_inj (s1 s2 : String) (h : escape s1 = escape s2) : s1 = s2 :=
  String.ext (flatMap_encode_inj escChar escDec escDec_nil escDec_escChar s1.data s2.data h)

theorem escChar_ne_nil (c : Char) : escChar c ≠ [] := by
  rw [escChar]
  split_ifs <;> simp

theorem escChar_head_ne_quote (c : Char) :
    ∀ e es, escChar c = e :: es → e ≠ '"' := by
  intro e es h hq
  subst hq
  rw [escChar] at h
  split_ifs at h with h1 h2 h3 h4 h5 h6 h7 h8 <;>
    simp only [List.cons.injEq] at h
  · exact absurd h.1 (by decide)
  · exact absurd h.1 (by decide)
  · exact absurd h.1 (by decide)
  · exact absurd h.1 (by decide)
  · exact absurd h.1 (by decide)
  · exact absurd h.1 (by decide)
  · exact absurd h.1 (by decide)
  · exact absurd h.1 (by decide)
  · exact h1 h.1

/-- Splitting an escaped body at its terminating quote is unambiguous. -/
theorem escapeL_quote_split :
    ∀ l1 l2 : List Char, ∀ r1 r2 : List Char,
      l1.flatMap escChar ++ '"' :: r1 = l2.flatMap escChar ++ '"' :: r2 →
      l1 = l2 ∧ r1 = r2 := by
  intro l1
  induction l1 with
  | nil =>
    intro l2 r1 r2 h
    cases l2 with
    | nil =>
      simp only [List.flatMap_nil, List.nil_append, List.cons.injEq] at h
      exact ⟨rfl, h.2⟩
    | cons a t =>
      exfalso
      rw [List.flatMap_nil, List.flatMap_cons, List.nil_append, List.append_assoc] at h
      cases he : escChar a with
      | nil => exact escChar_ne_nil a he
      | cons e es =>
        rw [he, List.cons_append] at h
        exact escChar_head_ne_quote a e es he (List.cons.inj h).1.symm
  | cons a t ih =>
    intro l2 r1 r2 h
    cases l2 with
    | nil =>
      exfalso
      rw [List.flatMap_cons, List.flatMap_nil, List.nil_append, List.append_assoc] at h
      cases he : escChar a with
      | nil => exact escChar_ne_nil a he
      | cons e es =>
        rw [he, List.cons_append] at h
        exact escChar_head_ne_quote a e es he (List.cons.inj h.symm).1.symm
    | cons a2 t2 =>
      rw [List.flatMap_cons, List.flatMap_cons, List.append_assoc, List.append_assoc] at h
      have hda := escDec_escChar a (t.flatMap escChar ++ '"' :: r1)
      rw [h, escDec_escChar a2 (t2.flatMap escChar ++ '"' :: r2)] at hda
      injection hda with hp
      injection hp with ha ht
      subst ha
      obtain ⟨ht2, hr⟩ := ih t2 r1 r2 ht.symm
      exact ⟨by rw [ht2], hr⟩

/-- The fueled digit printer agrees with `Nat.digits`. -/
theorem natDigitsAux_eq_digits :
    ∀ fuel n acc, n ≤ fuel →
      natDigitsAux fuel n acc = ((Nat.digits 10 n).map hexDig).reverse ++ acc := by
  intro fuel
  induction fuel with
  | zero =>
    intro n acc h
    have hn : n = 0 := Nat.le_zero.mp h
    subst hn
    simp [natDigitsAux]
  | succ fuel ih =>
    intro n acc h
    by_cases hn : n = 0
    · subst hn
      simp [natDigitsAux]
    · rw [natDigitsAux, if_neg hn]
      rw [ih (n / 10) _ (by omega)]
      rw [Nat.digits_def' (by norm_num) (Nat.pos_of_ne_zero hn)]
      simp [List.append_assoc]

theorem natRepr_eq_digits (n : Nat) (hn : n ≠ 0) :
    natRepr n = ((Nat.digits 10 n).map hexDig).reverse := by
  rw [natRepr, if_neg hn, natDigitsAux_eq_digits n n [] (Nat.le_refl n), List.append_nil]

theorem hexDig_isDigit : ∀ d, d < 10 → (hexDig d).isDigit := by decide

/-- Every character the amount serializer emits is a decimal digit. -/
theorem natRepr_all_digits (n : Nat) : ∀ c ∈ natRepr n, c.isDigit := by
  by_cases hn : n = 0
  · subst hn
    intro c hc
    simp [natRepr] at hc
    subst hc
    decide
  · rw [natRepr_eq_digits n hn]
    intro c hc
    rw [List.mem_reverse, List.mem_map] at hc
    obtain ⟨d, hd, hdc⟩ := hc
    rw [← hdc]
    exact hexDig_isDigit d (Nat.digits_lt_base (by norm_num) hd)

theorem map_hexDig_inj :
    ∀ D1 D2 : List Nat, (∀ d ∈ D1, d < 10) → (∀ d ∈ D2, d < 10) →
      D1.map hexDig = D2.map hexDig → D1 = D2 := by
  intro D1
  induction D1 with
  | nil =>
    intro D2 _ _ h
    cases D2 with
    | nil => rfl
    | cons d t => simp at h
  | cons d1 t1 ih =>
    intro D2 hb1 hb2 h
    cases D2 with
    | nil => simp at h
    | cons d2 t2 =>
      simp only [List.map_cons, List.cons.injEq] at h
      have hd : d1 = d2 := by
        have hb1' : d1 < 10 := hb1 d1 (by simp)
        have hb2' : d2 < 10 := hb2 d2 (by simp)
        revert h
        have : ∀ a, a < 10 → ∀ b, b < 10 → hexDig a = hexDig b → a = b := by decide
        exact fun hh => this d1 hb1' d2 hb2' hh.1
      have ht : t1 = t2 :=
        ih t2 (fun d hd => hb1 d (by simp [hd])) (fun d hd => hb2 d (by simp [hd])) h.2
      rw [hd, ht]

/-- The amount serializer is injective. -/
theorem natRepr_inj (n1 n2 : Nat) (h : natRepr n1 = natRepr n2) : n1 = n2 := by
  by_cases h1 : n1 = 0 <;> by_cases h2 : n2 = 0
  · rw [h1, h2]
  · exfalso
    rw [h1, show natRepr 0 = ['0'] from rfl, natRepr_eq_digits n2 h2] at h
    have hmap : (Nat.digits 10 n2).map hexDig = ['0'] := by
      have := congrArg List.reverse h
      simpa using this.symm
    have hdig : Nat.digits 10 n2 = [0] :=
      map_hexDig_inj _ [0] (fun d hd => Nat.digits_lt_base (by norm_num) hd)
        (by simp) (by simpa using hmap)
    have := Nat.ofDigits_digits 10 n2
    rw [hdig] at this
    simp [Nat.ofDigits] at this
    exact h2 this.symm
  · exfalso
    rw [h2, show natRepr 0 = ['0'] from rfl, natRepr_eq_digits n1 h1] at h
    have hmap : (Nat.digits 10 n1).map hexDig = ['0'] := by
      have := congrArg List.reverse h
      simpa using this
    have hdig : Nat.digits 10 n1 = [0] :=
      map_hexDig_inj _ [0] (fun d hd => Nat.digits_lt_base (by norm_num) hd)
        (by simp) (by simpa using hmap)
    have := Nat.ofDigits_digits 10 n1
    rw [hdig] at this
    simp [Nat.ofDigits] at this
    exact h1 this.symm
  · rw [natRepr_eq_digits n1 h1, natRepr_eq_digits n2 h2] at h
    have hmap := List.reverse_injective h
    have hdig := map_hexDig_inj _ _
      (fun d hd => Nat.digits_lt_base (by norm_num) hd)
      (fun d hd => Nat.digits_lt_base (by norm_num) hd) hmap
    have e1 := Nat.ofDigits_digits 10 n1
    have e2 := Nat.ofDigits_digits 10 n2
    rw [hdig] at e1
    rw [e2] at e1
    exact e1.symm

/-- Splitting a digit run at a terminating comma is unambiguous. -/
theorem digits_comma_split :
    ∀ A1 A2 r1 r2 : List Char, (∀ c ∈ A1, c.isDigit) → (∀ c ∈ A2, c.isDigit) →
      A1 ++ ',' :: r1 = A2 ++ ',' :: r2 → A1 = A2 ∧ r1 = r2 := by
  intro A1
  induction A1 with
  | nil =>
    intro A2 r1 r2 _ hb2 h
    cases A2 with
    | nil =>
      simp only [List.nil_append, List.cons.injEq] at h
      exact ⟨rfl, h.2⟩
    | cons c t =>
      exfalso
      simp only [List.nil_append, List.cons_append, List.cons.injEq] at h
      have : c.isDigit := hb2 c (by simp)
      rw [← h.1] at this
      exact absurd this (by decide)
  | cons c1 t1 ih =>
    intro A2 r1 r2 hb1 hb2 h
    cases A2 with
    | nil =>
      exfalso
      simp only [List.nil_append, List.cons_append, List.cons.injEq] at h
      have : c1.isDigit := hb1 c1 (by simp)
      rw [h.1] at this
      exact absurd this (by decide)
    | cons c2 t2 =>
      simp only [List.cons_append, List.cons.injEq] at h
      obtain ⟨ht, hr⟩ := ih t2 r1 r2 (fun c hc => hb1 c (by simp [hc]))
        (fun c hc => hb2 c (by simp [hc])) h.2
      exact ⟨by rw [h.1, ht], hr⟩

theorem char_toNat_lt (c : Char) : c.toNat < 1114112 := by
  have h := c.valid
  rcases h with h | h
  · have hh : c.val.toNat < 55296 := h
    simp only [Char.toNat]
    omega
  · have hh : c.val.toNat < 1114112 := h.2
    simp only [Char.toNat]
    omega

/-- One-token decoder for UTF-8. -/
def utf8Dec : List Nat → Option (Char × List Nat)
  | [] => none
  | b :: r =>
    if b < 0x80 then some (Char.ofNat b, r)
    else if b < 0xE0 then
      match r with
      | b2 :: r2 => some (Char.ofNat ((b - 0xC0) * 0x40 + (b2 - 0x80)), r2)
      | [] => none
    else if b < 0xF0 then
      match r with
      | b2 :: b3 :: r2 =>
        some (Char.ofNat ((b - 0xE0) * 0x1000 + (b2 - 0x80) * 0x40 + (b3 - 0x80)), r2)
      | _ => none
    else
      match r with
      | b2 :: b3 :: b4 :: r2 =>
        some (Char.ofNat
          ((b - 0xF0) * 0x40000 + (b2 - 0x80) * 0x1000 + (b3 - 0x80) * 0x40 + (b4 - 0x80)), r2)
      | _ => none

theorem utf8Dec_nil : utf8Dec [] = none := rfl

/-- The UTF-8 decoder inverts `utf8Char` in any right context. -/
theorem utf8Dec_utf8Char (c : Char) (r : List Nat) : utf8Dec (utf8Char c ++ r) = some (c, r) := by
  have hlt := char_toNat_lt c
  by_cases k1 : c.toNat < 0x80
  · have hstep : utf8Char c ++ r = c.toNat :: r := by
      simp only [utf8Char, if_pos k1, List.cons_append, List.nil_append]
    rw [hstep, utf8Dec.eq_def]
    dsimp only
    rw [if_pos k1, Char.ofNat_toNat]
  by_cases k2 : c.toNat < 0x800
  · have hstep : utf8Char c ++ r = (0xC0 + c.toNat / 0x40) :: (0x80 + c.toNat % 0x40) :: r := by
      simp only [utf8Char, if_neg k1, if_pos k2, List.cons_append, List.nil_append]
    have h1 : ¬(0xC0 + c.toNat / 0x40 < 0x80) := by omega
    have h2 : 0xC0 + c.toNat / 0x40 < 0xE0 := by omega
    have harith : (0xC0 + c.toNat / 0x40 - 0xC0) * 0x40 + (0x80 + c.toNat % 0x40 - 0x80)
        = c.toNat := by omega
    rw [hstep, utf8Dec.eq_def]
    dsimp only
    rw [if_neg h1, if_pos h2, harith, Char.ofNat_toNat]
  by_cases k3 : c.toNat < 0x10000
  · have hstep : utf8Char c ++ r =
        (0xE0 + c.toNat / 0x1000) :: (0x80 + c.toNat / 0x40 % 0x40) ::
        (0x80 + c.toNat % 0x40) :: r := by
      simp only [utf8Char, if_neg k1, if_neg k2, if_pos k3, List.cons_append, List.nil_append]
    have h1 : ¬(0xE0 + c.toNat / 0x1000 < 0x80) := by omega
    have h2 : ¬(0xE0 + c.toNat / 0x1000 < 0xE0) := by omega
    have h3 : 0xE0 + c.toNat / 0x1000 < 0xF0 := by omega
    have harith : (0xE0 + c.toNat / 0x1000 - 0xE0) * 0x1000 +
        (0x80 + c.toNat / 0x40 % 0x40 - 0x80) * 0x40 + (0x80 + c.toNat % 0x40 - 0x80)
        = c.toNat := by omega
    rw [hstep, utf8Dec.eq_def]
    dsimp only
    rw [if_neg h1, if_neg h2, if_pos h3, harith, Char.ofNat_toNat]
  · have hstep : utf8Char c ++ r =
        (0xF0 + c.toNat / 0x40000) :: (0x80 + c.toNat / 0x1000 % 0x40) ::
        (0x80 + c.toNat / 0x40 % 0x40) :: (0x80 + c.toNat % 0x40) :: r := by
      simp only [utf8Char, if_neg k1, if_neg k2, if_neg k3, List.cons_append, List.nil_append]
    have h1 : ¬(0xF0 + c.toNat / 0x40000 < 0x80) := by omega
    have h2 : ¬(0xF0 + c.toNat / 0x40000 < 0xE0) := by omega
    have h3 : ¬(0xF0 + c.toNat / 0x40000 < 0xF0) := by omega
    have harith : (0xF0 + c.toNat / 0x40000 - 0xF0) * 0x40000 +
        (0x80 + c.toNat / 0x1000 % 0x40 - 0x80) * 0x1000 +
        (0x80 + c.toNat / 0x40 % 0x40 - 0x80) * 0x40 + (0x80 + c.toNat % 0x40 - 0x80)
        = c.toNat := by omega
    rw [hstep, utf8Dec.eq_def]
    dsimp only
    rw [if_neg h1, if_neg h2, if_neg h3, harith, Char.ofNat_toNat]

/-- UTF-8 encoding is injective on strings. -/
theorem utf8Str_inj (s1 s2 : String) (h : utf8Str s1 = utf8Str s2) : s1 = s2 :=
  String.ext (flatMap_encode_inj utf8Char utf8Dec utf8Dec_nil utf8Dec_utf8Char s1.data s2.data h)

/-- UTF-8 emits bytes. -/
theorem utf8Char_lt256 (c : Char) : ∀ b ∈ utf8Char c, b < 256 := by
  have hlt := char_toNat_lt c
  intro b hb
  by_cases k1 : c.toNat < 0x80
  · simp only [utf8Char, if_pos k1, List.mem_singleton] at hb
    omega
  by_cases k2 : c.toNat < 0x800
  · simp only [utf8Char, if_neg k1, if_pos k2, List.mem_cons, List.mem_singleton,
      List.not_mem_nil, or_false] at hb
    rcases hb with h | h <;> omega
  by_cases k3 : c.toNat < 0x10000
  · simp only [utf8Char, if_neg k1, if_neg k2, if_pos k3, List.mem_cons, List.mem_singleton,
      List.not_mem_nil, or_false] at hb
    rcases hb with h | h | h <;> omega
  · simp only [utf8Char, if_neg k1, if_neg k2, if_neg k3, List.mem_cons, List.mem_singleton,
      List.not_mem_nil, or_false] at hb
    rcases hb with h | h | h | h <;> omega

theorem utf8Str_lt256 (s : String) : ∀ b ∈ utf8Str s, b < 256 := by
  intro b hb
  rw [utf8Str, List.mem_flatMap] at hb
  obtain ⟨c, _, hc⟩ := hb
  exact utf8Char_lt256 c b hc

/-- Index of a character in the base64 alphabet. -/
def b64Val (c : Char) : Nat :=
  b64Alphabet.findIdx (fun x => x == c)

theorem b64Val_b64Digit : ∀ n, n < 64 → b64Val (b64Digit n) = n := by decide

theorem b64Digit_ne_pad : ∀ n, n < 64 → b64Digit n ≠ '=' := by decide

/-- Decoder for the base64 encoding. -/
def b64Dec : List Char → Option (List Nat)
  | [] => some []
  | c1 :: c2 :: c3 :: c4 :: rest =>
    if c3 = '=' then
      if rest = [] then
        if c4 = '=' then some [b64Val c1 * 4 + b64Val c2 / 16] else none
      else none
    else if c4 = '=' then
      if rest = [] then
        some [b64Val c1 * 4 + b64Val c2 / 16, b64Val c2 % 16 * 16 + b64Val c3 / 4]
      else none
    else
      match b64Dec rest with
      | some bs =>
        some ((b64Val c1 * 4 + b64Val c2 / 16) ::
              (b64Val c2 % 16 * 16 + b64Val c3 / 4) ::
              (b64Val c3 % 4 * 64 + b64Val c4) :: bs)
      | none => none
  | _ => none

/-- The base64 decoder inverts the encoder on byte lists. -/
theorem b64Dec_b64Encode : ∀ bs : List Nat, (∀ b ∈ bs, b < 256) → b64Dec (b64Encode bs) = some bs
  | [], _ => rfl
  | [b1], h => by
    have hb1 : b1 < 256 := h b1 (by simp)
    have hstep : b64Encode [b1] = [b64Digit (b1 / 4), b64Digit (b1 % 4 * 16), '=', '='] := rfl
    rw [hstep, b64Dec.eq_def]
    dsimp only
    rw [if_pos rfl, if_pos rfl, if_pos rfl]
    rw [b64Val_b64Digit _ (by omega), b64Val_b64Digit _ (by omega)]
    have : b1 / 4 * 4 + b1 % 4 * 16 / 16 = b1 := by omega
    rw [this]
  | [b1, b2], h => by
    have hb1 : b1 < 256 := h b1 (by simp)
    have hb2 : b2 < 256 := h b2 (by simp)
    have hstep : b64Encode [b1, b2] =
        [b64Digit (b1 / 4), b64Digit (b1 % 4 * 16 + b2 / 16), b64Digit (b2 % 16 * 4), '='] := rfl
    rw [hstep, b64Dec.eq_def]
    dsimp only
    rw [if_neg (b64Digit_ne_pad _ (by omega)), if_pos rfl, if_pos rfl]
    rw [b64Val_b64Digit _ (by omega), b64Val_b64Digit _ (by omega),
      b64Val_b64Digit _ (by omega)]
    have e1 : b1 / 4 * 4 + (b1 % 4 * 16 + b2 / 16) / 16 = b1 := by omega
    have e2 : (b1 % 4 * 16 + b2 / 16) % 16 * 16 + b2 % 16 * 4 / 4 = b2 := by omega
    rw [e1, e2]
  | b1 :: b2 :: b3 :: b4 :: rest, h => by
    have hb1 : b1 < 256 := h b1 (by simp)
    have hb2 : b2 < 256 := h b2 (by simp)
    have hb3 : b3 < 256 := h b3 (by simp)
    have hrec := b64Dec_b64Encode (b4 :: rest) (fun b hb => h b (by simp [hb]))
    have hstep : b64Encode (b1 :: b2 :: b3 :: b4 :: rest) =
        b64Digit (b1 / 4) :: b64Digit (b1 % 4 * 16 + b2 / 16) ::
        b64Digit (b2 % 16 * 4 + b3 / 64) :: b64Digit (b3 % 64) ::
        b64Encode (b4 :: rest) := rfl
    rw [hstep, b64Dec.eq_def]
    dsimp only
    rw [if_neg (b64Digit_ne_pad _ (by omega)),
      if_neg (b64Digit_ne_pad _ (by omega)), hrec]
    dsimp only
    rw [b64Val_b64Digit _ (by omega), b64Val_b64Digit _ (by omega),
      b64Val_b64Digit _ (by omega), b64Val_b64Digit _ (by omega)]
    have e1 : b1 / 4 * 4 + (b1 % 4 * 16 + b2 / 16) / 16 = b1 := by omega
    have e2 : (b1 % 4 * 16 + b2 / 16) % 16 * 16 + (b2 % 16 * 4 + b3 / 64) / 4 = b2 := by omega
    have e3 : (b2 % 16 * 4 + b3 / 64) % 4 * 64 + b3 % 64 = b3 := by omega
    rw [e1, e2, e3]
  | [b1, b2, b3], h => by
    have hb1 : b1 < 256 := h b1 (by simp)
    have hb2 : b2 < 256 := h b2 (by simp)
    have hb3 : b3 < 256 := h b3 (by simp)
    have hstep : b64Encode [b1, b2, b3] =
        b64Digit (b1 / 4) :: b64Digit (b1 % 4 * 16 + b2 / 16) ::
        b64Digit (b2 % 16 * 4 + b3 / 64) :: b64Digit (b3 % 64) :: b64Encode [] := rfl
    rw [hstep, b64Dec.eq_def]
    dsimp only
    rw [if_neg (b64Digit_ne_pad _ (by omega)),
      if_neg (b64Digit_ne_pad _ (by omega))]
    rw [show b64Dec (b64Encode []) = some [] from rfl]
    dsimp only
    rw [b64Val_b64Digit _ (by omega), b64Val_b64Digit _ (by omega),
      b64Val_b64Digit _ (by omega), b64Val_b64Digit _ (by omega)]
    have e1 : b1 / 4 * 4 + (b1 % 4 * 16 + b2 / 16) / 16 = b1 := by omega
    have e2 : (b1 % 4 * 16 + b2 / 16) % 16 * 16 + (b2 % 16 * 4 + b3 / 64) / 4 = b2 := by omega
    have e3 : (b2 % 16 * 4 + b3 / 64) % 4 * 64 + b3 % 64 = b3 := by omega
    rw [e1, e2, e3]

/-- Base64 is injective on byte lists. -/
theorem b64Encode_inj (bs1 bs2 : List Nat) (h1 : ∀ b ∈ bs1, b < 256) (h2 : ∀ b ∈ bs2, b < 256)
    (h : b64Encode bs1 = b64Encode bs2) : bs1 = bs2 := by
  have d1 := b64Dec_b64Encode bs1 h1
  have d2 := b64Dec_b64Encode bs2 h2
  rw [h, d2] at d1
  exact (Option.some.inj d1).symm

/-- JSON text chunk before the action value. -/
def jK0 : List Char := ['{', '"', 'a', 'c', 't', 'i', 'o', 'n', '"', ':', '"']

/-- JSON text chunk before the amount value. -/
def jK1 : List Char := [',', '"', 'a', 'm', 'o', 'u', 'n', 't', '"', ':']

/-- JSON text chunk before the currency value. -/
def jK2 : List Char := ['"', 'c', 'u', 'r', 'r', 'e', 'n', 'c', 'y', '"', ':', '"']

/-- JSON text chunk before the description value. -/
def jK3 : List Char :=
  [',', '"', 'd', 'e', 's', 'c', 'r', 'i', 'p', 't', 'i', 'o', 'n', '"', ':', '"']

/-- JSON text chunk before the order identifier value. -/
def jK4 : List Char := [',', '"', 'o', 'r', 'd', 'e', 'r', '_', 'i', 'd', '"', ':', '"']

/-- JSON text chunk before the language value. -/
def jK5 : List Char := [',', '"', 'l', 'a', 'n', 'g', 'u', 'a', 'g', 'e', '"', ':', '"']

/-- JSON text chunk carrying the sandbox member and the version key. -/
def jKS : List Char :=
  [',', '"', 's', 'a', 'n', 'd', 'b', 'o', 'x', '"', ':', '"', '1', '"',
   ',', '"', 'v', 'e', 'r', 's', 'i', 'o', 'n', '"', ':', '"']

/-- JSON text chunk carrying the version key alone. -/
def jKN : List Char := [',', '"', 'v', 'e', 'r', 's', 'i', 'o', 'n', '"', ':', '"']

/-- JSON text chunk before the public key value. -/
def jK7 : List Char := [',', '"', 'p', 'u', 'b', 'l', 'i', 'c', '_', 'k', 'e', 'y', '"', ':', '"']

/-- The JSON text of a normalized payment, flattened with every
variable part exposed between constant chunks. -/
def jsonFlat (cfg : LiqPay) (p : IPayload) : List Char :=
  jK0 ++ (escape (actionStr p.action) ++ ('"' :: (jK1 ++ (natRepr p.amount ++ (',' :: (jK2 ++
  (escape (currencyStr p.currency) ++ ('"' :: (jK3 ++ (escape p.description ++ ('"' :: (jK4 ++
  (escape p.order_id ++ ('"' :: (jK5 ++ (escape (languageStr (p.language.getD Language.UA)) ++
  ('"' :: ((if cfg.enableSandbox then jKS else jKN) ++ (escape cfg.apiVersion ++
  ('"' :: (jK7 ++ (escape cfg.publicKey ++ ['"', '}']))))))))))))))))))))))

theorem escape_action : escape "action" = ['a', 'c', 't', 'i', 'o', 'n'] := rfl

theorem escape_amount : escape "amount" = ['a', 'm', 'o', 'u', 'n', 't'] := rfl

theorem escape_currency : escape "currency" = ['c', 'u', 'r', 'r', 'e', 'n', 'c', 'y'] := rfl

theorem escape_description :
    escape "description" = ['d', 'e', 's', 'c', 'r', 'i', 'p', 't', 'i', 'o', 'n'] := rfl

theorem escape_order_id : escape "order_id" = ['o', 'r', 'd', 'e', 'r', '_', 'i', 'd'] := rfl

theorem escape_language : escape "language" = ['l', 'a', 'n', 'g', 'u', 'a', 'g', 'e'] := rfl

theorem escape_sandbox : escape "sandbox" = ['s', 'a', 'n', 'd', 'b', 'o', 'x'] := rfl

theorem escape_one : escape "1" = ['1'] := rfl

theorem escape_version : escape "version" = ['v', 'e', 'r', 's', 'i', 'o', 'n'] := rfl

theorem escape_public_key :
    escape "public_key" = ['p', 'u', 'b', 'l', 'i', 'c', '_', 'k', 'e', 'y'] := rfl

/-- The serializer output on a normalized payment equals the flattened
JSON text. -/
theorem json_specOrdered (cfg : LiqPay) (p : IPayload) :
    jsonObjStr (specOrdered cfg p) = jsonFlat cfg p := by
  cases hb : cfg.enableSandbox <;>
    simp [jsonObjStr, specOrdered, jsonFlat, hb, jsonEntry, jsonValStr, joinComma,
      escape_action, escape_amount, escape_currency, escape_description, escape_order_id,
      escape_language, escape_sandbox, escape_one, escape_version, escape_public_key,
      jK0, jK1, jK2, jK3, jK4, jK5, jKS, jKN, jK7]

theorem escape_quote_split (s1 s2 : String) (r1 r2 : List Char)
    (h : escape s1 ++ '"' :: r1 = escape s2 ++ '"' :: r2) : s1 = s2 ∧ r1 = r2 := by
  obtain ⟨hd, ht⟩ := escapeL_quote_split s1.data s2.data r1 r2 h
  exact ⟨String.ext hd, ht⟩

/-- Equal flattened JSON texts force the payloads to agree on every
serialized field. -/
theorem jsonFlat_inj (cfg : LiqPay) (p1 p2 : IPayload)
    (h : jsonFlat cfg p1 = jsonFlat cfg p2) :
    actionStr p1.action = actionStr p2.action ∧
    natRepr p1.amount = natRepr p2.amount ∧
    currencyStr p1.currency = currencyStr p2.currency ∧
    p1.description = p2.description ∧
    p1.order_id = p2.order_id ∧
    languageStr (p1.language.getD Language.UA) = languageStr (p2.language.getD Language.UA) := by
  rw [jsonFlat, jsonFlat] at h
  have h0 := List.append_cancel_left h
  obtain ⟨ha, h1⟩ := escape_quote_split _ _ _ _ h0
  have h1b := List.append_cancel_left h1
  obtain ⟨hm, h2⟩ := digits_comma_split _ _ _ _ (natRepr_all_digits p1.amount)
    (natRepr_all_digits p2.amount) h1b
  have h2b := List.append_cancel_left h2
  obtain ⟨hc, h3⟩ := escape_quote_split _ _ _ _ h2b
  have h3b := List.append_cancel_left h3
  obtain ⟨hdsc, h4⟩ := escape_quote_split _ _ _ _ h3b
  have h4b := List.append_cancel_left h4
  obtain ⟨ho, h5⟩ := escape_quote_split _ _ _ _ h4b
  have h5b := List.append_cancel_left h5
  obtain ⟨hl, _⟩ := escape_quote_split _ _ _ _ h5b
  exact ⟨ha, hm, hc, hdsc, ho, hl⟩

theorem actionStr_inj : ∀ a1 a2 : Action, actionStr a1 = actionStr a2 → a1 = a2 := by
  intro a1 a2 h
  cases a1 <;> cases a2 <;> revert h <;> decide

theorem currencyStr_inj : ∀ c1 c2 : Currency, currencyStr c1 = currencyStr c2 → c1 = c2 := by
  intro c1 c2 h
  cases c1 <;> cases c2 <;> revert h <;> decide

theorem languageStr_inj : ∀ l1 l2 : Language, languageStr l1 = languageStr l2 → l1 = l2 := by
  intro l1 l2 h
  cases l1 <;> cases l2 <;> revert h <;> decide

/-- Equal encoded data forces the payloads to agree on every field up
to the language defaulting. -/
theorem prepared_data_inj (cfg : LiqPay) (p1 p2 : IPayload)
    (h : generateData (preparePayment cfg p1) = generateData (preparePayment cfg p2)) :
    p1.action = p2.action ∧ p1.amount = p2.amount ∧ p1.currency = p2.currency ∧
    p1.description = p2.description ∧ p1.order_id = p2.order_id ∧
    p1.language.getD Language.UA = p2.language.getD Language.UA := by
  have hb : b64Encode (utf8Str (String.mk (jsonObjStr (preparePayment cfg p1)))) =
      b64Encode (utf8Str (String.mk (jsonObjStr (preparePayment cfg p2)))) :=
    congrArg String.data h
  have hu := b64Encode_inj _ _ (utf8Str_lt256 _) (utf8Str_lt256 _) hb
  have hj := utf8Str_inj _ _ hu
  have hjl : jsonObjStr (preparePayment cfg p1) = jsonObjStr (preparePayment cfg p2) :=
    congrArg String.data hj
  rw [preparePayment_eq cfg p1, preparePayment_eq cfg p2,
    json_specOrdered cfg p1, json_specOrdered cfg p2] at hjl
  obtain ⟨ha, hm, hc, hd, ho, hl⟩ := jsonFlat_inj cfg p1 p2 hjl
  exact ⟨actionStr_inj _ _ ha, natRepr_inj _ _ hm, currencyStr_inj _ _ hc, hd, ho,
    languageStr_inj _ _ hl⟩

theorem getObjData_ok_inv (cfg : LiqPay) (p : IPayload) (r : ISignature)
    (h : getObjData cfg p = .ok r) :
    r = { data := generateData (preparePayment cfg p),
          signature := generateSignature cfg (generateData (preparePayment cfg p)) } := by
  have hdef : getObjData cfg p =
      (match verifyPaymentData (preparePayment cfg p) with
       | .error e => .error e
       | .ok _ => .ok { data := generateData (preparePayment cfg p),
                        signature := generateSignature cfg
                          (generateData (preparePayment cfg p)) }) := rfl
  rw [hdef] at h
  cases hv : verifyPaymentData (preparePayment cfg p) with
  | error e =>
    rw [hv] at h
    exact absurd h (by simp)
  | ok u =>
    rw [hv] at h
    exact (Except.ok.inj h).symm

/-- C9 amended: if two valid payloads are given to the same builder and
the returned data coincides, then the payloads agree on action, amount,
currency, description and order identifier, and their languages agree
after the Ukrainian default; the signatures coincide as well.
Contrapositive: payloads differing in any field — except an unset
language versus an explicit Ukrainian one, which normalize identically
— produce different data and hence different SHA-1 inputs. -/
theorem claim_signature_avalanche (cfg : LiqPay) (p1 p2 : IPayload) (r1 r2 : ISignature)
    (h1 : getObjData cfg p1 = .ok r1) (h2 : getObjData cfg p2 = .ok r2)
    (hd : r1.data = r2.data) :
    p1.action = p2.action ∧ p1.amount = p2.amount ∧ p1.currency = p2.currency ∧
    p1.description = p2.description ∧ p1.order_id = p2.order_id ∧
    p1.language.getD Language.UA = p2.language.getD Language.UA ∧
    r1.signature = r2.signature := by
  have e1 := getObjData_ok_inv cfg p1 r1 h1
  have e2 := getObjData_ok_inv cfg p2 r2 h2
  have hdd : generateData (preparePayment cfg p1) = generateData (preparePayment cfg p2) := by
    rw [e1, e2] at hd
    exact hd
  obtain ⟨ha, hm, hc, hdsc, ho, hl⟩ := prepared_data_inj cfg p1 p2 hdd
  refine ⟨ha, hm, hc, hdsc, ho, hl, ?_⟩
  rw [e1, e2]
  simp only [generateSignature, hdd]

/-- C9 amended witness: identical payloads trivially satisfy the
hypotheses, exercising the theorem at a concrete input. -/
theorem claim_signature_avalanche_witness :
    getObjData (liqPayInit "key" "pub" false)
        (⟨Action.pay, 1, Currency.UAH, "d", "o", none⟩ : IPayload) =
      .ok { data := generateData (preparePayment (liqPayInit "key" "pub" false)
                      (⟨Action.pay, 1, Currency.UAH, "d", "o", none⟩ : IPayload)),
            signature := generateSignature (liqPayInit "key" "pub" false)
              (generateData (preparePayment (liqPayInit "key" "pub" false)
                (⟨Action.pay, 1, Currency.UAH, "d", "o", none⟩ : IPayload))) } ∧
    (⟨Action.pay, 1, Currency.UAH, "d", "o", none⟩ : IPayload).amount =
      (⟨Action.pay, 1, Currency.UAH, "d", "o", none⟩ : IPayload).amount :=
  ⟨getObjData_ok (liqPayInit "key" "pub" false)
     (⟨Action.pay, 1, Currency.UAH, "d", "o", none⟩ : IPayload) rfl,
   (claim_signature_avalanche (liqPayInit "key" "pub" false)
     (⟨Action.pay, 1, Currency.UAH, "d", "o", none⟩ : IPayload)
     (⟨Action.pay, 1, Currency.UAH, "d", "o", none⟩ : IPayload) _ _
     (getObjData_ok (liqPayInit "key" "pub" false)
       (⟨Action.pay, 1, Currency.UAH, "d", "o", none⟩ : IPayload) rfl)
     (getObjData_ok (liqPayInit "key" "pub" false)
       (⟨Action.pay, 1, Currency.UAH, "d", "o", none⟩ : IPayload) rfl) rfl).2.1⟩

theorem getObjData_congr (cfg : LiqPay) (p1 p2 : IPayload)
    (h : preparePayment cfg p1 = preparePayment cfg p2) :
    getObjData cfg p1 = getObjData cfg p2 := by
  have d1 : getObjData cfg p1 =
      (match verifyPaymentData (preparePayment cfg p1) with
       | .error e => .error e
       | .ok _ => .ok { data := generateData (preparePayment cfg p1),
                        signature := generateSignature cfg
                          (generateData (preparePayment cfg p1)) }) := rfl
  have d2 : getObjData cfg p2 =
      (match verifyPaymentData (preparePayment cfg p2) with
       | .error e => .error e
       | .ok _ => .ok { data := generateData (preparePayment cfg p2),
                        signature := generateSignature cfg
                          (generateData (preparePayment cfg p2)) }) := rfl
  rw [d1, d2, h]

/-- C9 counterexample: two valid payloads that differ in exactly one
field — the language, unset versus explicitly Ukrainian — normalize to
the same payment and receive identical data and identical signature,
so a single-field change does not always change the signature. -/
theorem claim_signature_avalanche_counterexample :
    (⟨Action.pay, 1, Currency.UAH, "d", "o", none⟩ : IPayload) ≠
      (⟨Action.pay, 1, Currency.UAH, "d", "o", some Language.UA⟩ : IPayload) ∧
    (⟨Action.pay, 1, Currency.UAH, "d", "o", none⟩ : IPayload).action =
      (⟨Action.pay, 1, Currency.UAH, "d", "o", some Language.UA⟩ : IPayload).action ∧
    (⟨Action.pay, 1, Currency.UAH, "d", "o", none⟩ : IPayload).amount =
      (⟨Action.pay, 1, Currency.UAH, "d", "o", some Language.UA⟩ : IPayload).amount ∧
    (⟨Action.pay, 1, Currency.UAH, "d", "o", none⟩ : IPayload).currency =
      (⟨Action.pay, 1, Currency.UAH, "d", "o", some Language.UA⟩ : IPayload).currency ∧
    (⟨Action.pay, 1, Currency.UAH, "d", "o", none⟩ : IPayload).description =
      (⟨Action.pay, 1, Currency.UAH, "d", "o", some Language.UA⟩ : IPayload).description ∧
    (⟨Action.pay, 1, Currency.UAH, "d", "o", none⟩ : IPayload).order_id =
      (⟨Action.pay, 1, Currency.UAH, "d", "o", some Language.UA⟩ : IPayload).order_id ∧
    (⟨Action.pay, 1, Currency.UAH, "d", "o", none⟩ : IPayload).language ≠
      (⟨Action.pay, 1, Currency.UAH, "d", "o", some Language.UA⟩ : IPayload).language ∧
    verifyPaymentData (preparePayment (liqPayInit "key" "pub" false)
      (⟨Action.pay, 1, Currency.UAH, "d", "o", none⟩ : IPayload)) = .ok () ∧
    verifyPaymentData (preparePayment (liqPayInit "key" "pub" false)
      (⟨Action.pay, 1, Currency.UAH, "d", "o", some Language.UA⟩ : IPayload)) = .ok () ∧
    getObjData (liqPayInit "key" "pub" false)
        (⟨Action.pay, 1, Currency.UAH, "d", "o", none⟩ : IPayload) =
      getObjData (liqPayInit "key" "pub" false)
        (⟨Action.pay, 1, Currency.UAH, "d", "o", some Language.UA⟩ : IPayload) :=
  ⟨by decide, rfl, rfl, rfl, rfl, rfl, by decide, rfl, rfl,
   getObjData_congr _ _ _ rfl⟩

/-- Boolean prefix test. -/
def leads : List Char → List Char → Bool
  | [], _ => true
  | _ :: _, [] => false
  | p :: ps, c :: cs => p == c && leads ps cs

/-- The token whose occurrences identify an action attribute: a space,
the attribute name and its opening quote. -/
def actP : List Char := [' ', 'a', 'c', 't', 'i', 'o', 'n', '=', '"']

/-- Number of positions at which `P` occurs in the text. -/
def countOcc (P : List Char) : List Char → Nat
  | [] => 0
  | c :: s => if leads P (c :: s) then (countOcc P s).succ else countOcc P s

theorem countOcc_cons_ne (c : Char) (S : List Char) (h : ¬ c = ' ') :
    countOcc actP (c :: S) = countOcc actP S := by
  have hl : leads actP (c :: S) = false := by
    have hb : (' ' == c) = false := by
      rw [beq_eq_false_iff_ne]
      exact fun hc => h hc.symm
    simp [actP, leads, hb]
  rw [countOcc.eq_def]
  dsimp only
  rw [hl]
  simp

theorem countOcc_append_nospace (X S : List Char) (h : ∀ c ∈ X, ¬ c = ' ') :
    countOcc actP (X ++ S) = countOcc actP S := by
  induction X with
  | nil => rfl
  | cons c t ih =>
    rw [List.cons_append, countOcc_cons_ne c _ (h c (by simp)),
      ih (fun c hc => h c (by simp [hc]))]

theorem countOcc_htmlT0 (S : List Char) :
    countOcc actP (htmlT0.data ++ S) = (countOcc actP S).succ := rfl

theorem countOcc_htmlT1 (S : List Char) :
    countOcc actP (htmlT1.data ++ S) = countOcc actP S := rfl

theorem countOcc_htmlT2 (S : List Char) :
    countOcc actP (htmlT2.data ++ S) = countOcc actP S := rfl

theorem countOcc_htmlT3 (S : List Char) :
    countOcc actP (htmlT3.data ++ S) = countOcc actP S := rfl

theorem countOcc_htmlT4 : countOcc actP htmlT4.data = 0 := rfl

theorem b64Digit_ne_space (n : Nat) : ¬ b64Digit n = ' ' := by
  rcases Nat.lt_or_ge n 64 with h | h
  · exact (by decide : ∀ m, m < 64 → ¬ b64Digit m = ' ') n h
  · rw [b64Digit, List.getD_eq_default]
    · decide
    · have hlen : b64Alphabet.length = 64 := rfl
      omega

theorem b64Digit_ne_quote (n : Nat) : ¬ b64Digit n = '"' := by
  rcases Nat.lt_or_ge n 64 with h | h
  · exact (by decide : ∀ m, m < 64 → ¬ b64Digit m = '"') n h
  · rw [b64Digit, List.getD_eq_default]
    · decide
    · have hlen : b64Alphabet.length = 64 := rfl
      omega

theorem b64Encode_no_space : ∀ bs : List Nat, ∀ c ∈ b64Encode bs, ¬ c = ' '
  | [] => by simp [b64Encode]
  | [b1] => by
    intro c hc
    simp only [b64Encode, List.mem_cons, List.not_mem_nil, or_false] at hc
    rcases hc with h | h | h | h <;> subst h
    · exact b64Digit_ne_space _
    · exact b64Digit_ne_space _
    · decide
    · decide
  | [b1, b2] => by
    intro c hc
    simp only [b64Encode, List.mem_cons, List.not_mem_nil, or_false] at hc
    rcases hc with h | h | h | h <;> subst h
    · exact b64Digit_ne_space _
    · exact b64Digit_ne_space _
    · exact b64Digit_ne_space _
    · decide
  | b1 :: b2 :: b3 :: b4 :: rest => by
    intro c hc
    simp only [b64Encode, List.mem_cons] at hc
    rcases hc with h | h | h | h | h
    · subst h; exact b64Digit_ne_space _
    · subst h; exact b64Digit_ne_space _
    · subst h; exact b64Digit_ne_space _
    · subst h; exact b64Digit_ne_space _
    · exact b64Encode_no_space (b4 :: rest) c h
  | [b1, b2, b3] => by
    intro c hc
    simp only [b64Encode, List.mem_cons, List.not_mem_nil, or_false] at hc
    rcases hc with h | h | h | h <;> subst h
    · exact b64Digit_ne_space _
    · exact b64Digit_ne_space _
    · exact b64Digit_ne_space _
    · exact b64Digit_ne_space _

theorem getHtmlForm_ok (cfg : LiqPay) (p : IPayload) (r : ISignature)
    (h : getObjData cfg p = .ok r) :
    getHtmlForm cfg p = .ok (htmlT0 ++ baseUrl ++ "/" ++ cfg.apiVersion ++ "/checkout" ++
      htmlT1 ++ r.data ++ htmlT2 ++ r.signature ++ htmlT3 ++ imageSrc ++ htmlT4) := by
  have hdef : getHtmlForm cfg p =
      (match getObjData cfg p with
       | .error e => .error e
       | .ok r => .ok (htmlT0 ++ baseUrl ++ "/" ++ cfg.apiVersion ++ "/checkout" ++
           htmlT1 ++ r.data ++ htmlT2 ++ r.signature ++ htmlT3 ++ imageSrc ++ htmlT4)) := rfl
  rw [hdef, h]

/-- C6 amended: when the configured version contains no space and no
double quote (as the default "3" and any reasonable version do), the
rendered form is exactly the template around the action URL
`baseUrl/version/checkout` with the same data and signature that
`getObjData` returns, the quoted URL value is unpolluted, and the text
contains exactly one action attribute token. -/
theorem claim_html_form (cfg : LiqPay) (p : IPayload) (r : ISignature)
    (h : getObjData cfg p = .ok r)
    (hsp : ¬ ' ' ∈ cfg.apiVersion.data) (hq : ¬ '"' ∈ cfg.apiVersion.data) :
    getHtmlForm cfg p = .ok (htmlT0 ++ baseUrl ++ "/" ++ cfg.apiVersion ++ "/checkout" ++
      htmlT1 ++ r.data ++ htmlT2 ++ r.signature ++ htmlT3 ++ imageSrc ++ htmlT4) ∧
    ¬ '"' ∈ (baseUrl ++ "/" ++ cfg.apiVersion ++ "/checkout").data ∧
    countOcc actP (htmlT0 ++ baseUrl ++ "/" ++ cfg.apiVersion ++ "/checkout" ++ htmlT1 ++
      r.data ++ htmlT2 ++ r.signature ++ htmlT3 ++ imageSrc ++ htmlT4).data = 1 := by
  refine ⟨getHtmlForm_ok cfg p r h, ?_, ?_⟩
  · intro hmem
    simp only [String.data_append, List.mem_append] at hmem
    rcases hmem with ((hx | hx) | hx) | hx
    · exact absurd hx (by decide)
    · exact absurd hx (by decide)
    · exact hq hx
    · exact absurd hx (by decide)
  · have hri := getObjData_ok_inv cfg p r h
    have hrd : r.data = generateData (preparePayment cfg p) := by rw [hri]
    have hrs : r.signature = generateSignature cfg (generateData (preparePayment cfg p)) := by
      rw [hri]
    have hd' : ∀ c ∈ r.data.data, ¬ c = ' ' := by
      rw [hrd]
      exact fun c hc => b64Encode_no_space _ c hc
    have hs' : ∀ c ∈ r.signature.data, ¬ c = ' ' := by
      rw [hrs]
      exact fun c hc => b64Encode_no_space _ c hc
    have hv' : ∀ c ∈ cfg.apiVersion.data, ¬ c = ' ' := fun c hc he => hsp (he ▸ hc)
    have hbu : ∀ c ∈ baseUrl.data, ¬ c = ' ' := by decide
    have hsl : ∀ c ∈ ("/" : String).data, ¬ c = ' ' := by decide
    have hco : ∀ c ∈ ("/checkout" : String).data, ¬ c = ' ' := by decide
    have him : ∀ c ∈ imageSrc.data, ¬ c = ' ' := by decide
    simp only [String.data_append, List.append_assoc]
    rw [countOcc_htmlT0, countOcc_append_nospace _ _ hbu, countOcc_append_nospace _ _ hsl,
      countOcc_append_nospace _ _ hv', countOcc_append_nospace _ _ hco, countOcc_htmlT1,
      countOcc_append_nospace _ _ hd', countOcc_htmlT2, countOcc_append_nospace _ _ hs',
      countOcc_htmlT3, countOcc_append_nospace _ _ him, countOcc_htmlT4]

/-- C6 amended witness: the default version "3" on a valid payload. -/
theorem claim_html_form_witness :
    getHtmlForm (liqPayInit "key" "pub" false)
        (⟨Action.pay, 1, Currency.UAH, "d", "o", none⟩ : IPayload) =
      .ok (htmlT0 ++ baseUrl ++ "/" ++ (liqPayInit "key" "pub" false).apiVersion ++
        "/checkout" ++ htmlT1 ++
        generateData (preparePayment (liqPayInit "key" "pub" false)
          (⟨Action.pay, 1, Currency.UAH, "d", "o", none⟩ : IPayload)) ++ htmlT2 ++
        generateSignature (liqPayInit "key" "pub" false)
          (generateData (preparePayment (liqPayInit "key" "pub" false)
            (⟨Action.pay, 1, Currency.UAH, "d", "o", none⟩ : IPayload))) ++ htmlT3 ++
        imageSrc ++ htmlT4) ∧
    ¬ '"' ∈ (baseUrl ++ "/" ++ (liqPayInit "key" "pub" false).apiVersion ++ "/checkout").data ∧
    countOcc actP (htmlT0 ++ baseUrl ++ "/" ++ (liqPayInit "key" "pub" false).apiVersion ++
      "/checkout" ++ htmlT1 ++
      generateData (preparePayment (liqPayInit "key" "pub" false)
        (⟨Action.pay, 1, Currency.UAH, "d", "o", none⟩ : IPayload)) ++ htmlT2 ++
      generateSignature (liqPayInit "key" "pub" false)
        (generateData (preparePayment (liqPayInit "key" "pub" false)
          (⟨Action.pay, 1, Currency.UAH, "d", "o", none⟩ : IPayload))) ++ htmlT3 ++
      imageSrc ++ htmlT4).data = 1 := by
  have hthm := claim_html_form (liqPayInit "key" "pub" false)
    (⟨Action.pay, 1, Currency.UAH, "d", "o", none⟩ : IPayload) _
    (getObjData_ok (liqPayInit "key" "pub" false)
      (⟨Action.pay, 1, Currency.UAH, "d", "o", none⟩ : IPayload) rfl)
    (by decide) (by decide)
  dsimp only at hthm
  exact hthm

theorem countOcc_evilVersion (S : List Char) :
    countOcc actP (("3\" action=\"x" : String).data ++ S) = (countOcc actP S).succ := rfl

/-- C6 counterexample: a version string accepted by `setApiVersion` and
containing `" action="` injects a second action attribute token into
the rendered form, so the form does not contain exactly one action
attribute for every builder the class admits. -/
theorem claim_html_form_counterexample :
    setApiVersion (liqPayInit "key" "pub" false) "3\" action=\"x" =
      .ok (⟨"key", "pub", false, "3\" action=\"x"⟩ : LiqPay) ∧
    getHtmlForm (⟨"key", "pub", false, "3\" action=\"x"⟩ : LiqPay)
        (⟨Action.pay, 1, Currency.UAH, "d", "o", none⟩ : IPayload) =
      .ok (htmlT0 ++ baseUrl ++ "/" ++ "3\" action=\"x" ++ "/checkout" ++ htmlT1 ++
        generateData (preparePayment (⟨"key", "pub", false, "3\" action=\"x"⟩ : LiqPay)
          (⟨Action.pay, 1, Currency.UAH, "d", "o", none⟩ : IPayload)) ++ htmlT2 ++
        generateSignature (⟨"key", "pub", false, "3\" action=\"x"⟩ : LiqPay)
          (generateData (preparePayment (⟨"key", "pub", false, "3\" action=\"x"⟩ : LiqPay)
            (⟨Action.pay, 1, Currency.UAH, "d", "o", none⟩ : IPayload))) ++ htmlT3 ++
        imageSrc ++ htmlT4) ∧
    countOcc actP (htmlT0 ++ baseUrl ++ "/" ++ "3\" action=\"x" ++ "/checkout" ++ htmlT1 ++
      generateData (preparePayment (⟨"key", "pub", false, "3\" action=\"x"⟩ : LiqPay)
        (⟨Action.pay, 1, Currency.UAH, "d", "o", none⟩ : IPayload)) ++ htmlT2 ++
      generateSignature (⟨"key", "pub", false, "3\" action=\"x"⟩ : LiqPay)
        (generateData (preparePayment (⟨"key", "pub", false, "3\" action=\"x"⟩ : LiqPay)
          (⟨Action.pay, 1, Currency.UAH, "d", "o", none⟩ : IPayload))) ++ htmlT3 ++
      imageSrc ++ htmlT4).data = 2 := by
  have hform := getHtmlForm_ok (⟨"key", "pub", false, "3\" action=\"x"⟩ : LiqPay)
    (⟨Action.pay, 1, Currency.UAH, "d", "o", none⟩ : IPayload) _
    (getObjData_ok (⟨"key", "pub", false, "3\" action=\"x"⟩ : LiqPay)
      (⟨Action.pay, 1, Currency.UAH, "d", "o", none⟩ : IPayload) rfl)
  dsimp only at hform
  refine ⟨rfl, hform, ?_⟩
  have hd' : ∀ c ∈ (generateData (preparePayment (⟨"key", "pub", false, "3\" action=\"x"⟩ : LiqPay)
      (⟨Action.pay, 1, Currency.UAH, "d", "o", none⟩ : IPayload))).data, ¬ c = ' ' :=
    fun c hc => b64Encode_no_space _ c hc
  have hs' : ∀ c ∈ (generateSignature (⟨"key", "pub", false, "3\" action=\"x"⟩ : LiqPay)
      (generateData (preparePayment (⟨"key", "pub", false, "3\" action=\"x"⟩ : LiqPay)
        (⟨Action.pay, 1, Currency.UAH, "d", "o", none⟩ : IPayload)))).data, ¬ c = ' ' :=
    fun c hc => b64Encode_no_space _ c hc
  have hbu : ∀ c ∈ baseUrl.data, ¬ c = ' ' := by decide
  have hsl : ∀ c ∈ ("/" : String).data, ¬ c = ' ' := by decide
  have hco : ∀ c ∈ ("/checkout" : String).data, ¬ c = ' ' := by decide
  have him : ∀ c ∈ imageSrc.data, ¬ c = ' ' := by decide
  simp only [String.data_append, List.append_assoc]
  rw [countOcc_htmlT0, countOcc_append_nospace _ _ hbu, countOcc_append_nospace _ _ hsl,
    countOcc_evilVersion, countOcc_append_nospace _ _ hco, countOcc_htmlT1,
    countOcc_append_nospace _ _ hd', countOcc_htmlT2, countOcc_append_nospace _ _ hs',
    countOcc_htmlT3, countOcc_append_nospace _ _ him, countOcc_htmlT4]

end LiqPaySpec
